import Mathlib

/-!
Verification of the `exceptional` crate: a library that captures a failing
invocation of a user-defined operation and renders it as a replayable unit
test appended to a file.

Shallow embedding conventions:
* Rust's `&mut self` mutation is modelled by explicit state passing: the
  trait method `execute(&mut self, args)` becomes a function
  `E → Args → E × Except Err Res` returning the post-invocation state.
* The external crates `chrono` and `serde_json` are modelled at their
  interface surface: a `DateTimeUtc` carries exactly the two observations
  the code makes of it (`timestamp_millis` and `to_rfc2822`), and the
  serde codec is a pair of functions supplied with each `Executable`
  implementation (`Serialize` may fail, hence `Option String`).
* A Rust panic (`.expect(..)`) is modelled as the `Except.error` channel of
  the rendering function, distinct from any returned error value.
* The file system is a single file's contents: `Option String`
  (`none` = the path does not exist).
-/

namespace Exceptional

/-- Model of `chrono::DateTime<Utc>` (external crate), reduced to the two
observations the source makes of a timestamp: `timestamp_millis()` (an `i64`,
modelled as `Int`) and `to_rfc2822()` (a formatted string, carried as data). -/
structure DateTimeUtc where
  millis : Int
  rfc2822 : String
deriving DecidableEq

/-- Model of the `Executable` trait of `src/lib.rs` (one value of this
structure = one trait implementation). `full_path` and `description` are the
read-only identity/documentation methods; `execute` is the mutating
invocation, returning the post-state together with the result;
`encodeSelf` / `encodeArgs` model the `Serialize` bounds via `serde_json`'s
`to_string_pretty` (`none` = serialization error); `errRepr` models the
`Debug` bound on the error type (`{:?}` formatting). -/
structure ExecutableImpl (E Args Res Err : Type) where
  full_path : E → String
  description : E → String
  execute : E → Args → E × Except Err Res
  encodeSelf : E → Option String
  encodeArgs : Args → Option String
  errRepr : Err → String

/-- Model of the `UnitTest` struct of `src/lib.rs`: the error thrown, the
arguments used (borrowed in the source; borrowing has no observable effect
in a value model), the executable with its state from before the failure,
and the failure time. -/
structure UnitTest (E Args Err : Type) where
  error : Err
  arguments : Args
  executable : E
  time : DateTimeUtc

/-- Model of the free function `execute` of `src/lib.rs`: clone the
executable (`let old = executable.clone()`), invoke it, and on failure wrap
the error, the arguments, the clone and `Utc::now()` (passed in as `now`) in
a `UnitTest`. The returned pair is (post-invocation executable state, result),
making the mutation of the caller's `&mut E` explicit. -/
def execute {E Args Res Err : Type} (impl : ExecutableImpl E Args Res Err)
    (executable : E) (arguments : Args) (now : DateTimeUtc) :
    E × Except (UnitTest E Args Err) Res :=
  let old := executable
  let p := impl.execute executable arguments
  match p.2 with
  | Except.ok value => (p.1, Except.ok value)
  | Except.error e =>
      (p.1, Except.error { error := e, arguments := arguments, executable := old, time := now })

/-- `true` exactly on the `ok` channel (used to state "returns a Captured
Failure iff invoke returned an error"). -/
def exceptIsOk {ε α : Type} : Except ε α → Bool
  | Except.ok _ => true
  | Except.error _ => false

/-- Model of `SomeImportantAction` of `src/main.rs`; `u32` fields are
modelled as `Nat` (with the `< 2^32` bound stated where it matters). -/
structure SomeImportantAction where
  var_1 : Nat
  var_2 : Nat
deriving DecidableEq

/-- A concrete executable used to exercise the generic theorems on an
implementation whose `execute` mutates `self` before failing: it increments
its counter and then returns an error. -/
structure CounterAction where
  value : Nat
deriving DecidableEq

/-- Trait implementation for `CounterAction`: mutates (increments `value`)
and then fails unconditionally. -/
def counterImpl : ExecutableImpl CounterAction Unit Unit String where
  full_path _ := "::CounterAction"
  description _ := "counts"
  execute s _ := ({ value := s.value + 1 }, Except.error "boom")
  encodeSelf _ := some ""
  encodeArgs _ := some ""
  errRepr e := e

/-- A sample capture time (the one visible in `src/test.rs`). -/
def sampleTime : DateTimeUtc :=
  { millis := 1539761233543, rfc2822 := "Wed, 17 Oct 2018 07:27:13 +0000" }

/-- The decimal digit characters (used to model Rust's integer `Display`). -/
def digitChar : Nat → Char
  | 0 => '0'
  | 1 => '1'
  | 2 => '2'
  | 3 => '3'
  | 4 => '4'
  | 5 => '5'
  | 6 => '6'
  | 7 => '7'
  | 8 => '8'
  | 9 => '9'
  | _ => '*'

/-- Fuelled helper for `natDigits` (structural recursion on the fuel keeps
the definition computable by the kernel; `natDigits` supplies enough fuel
that the `0` case is never reached). -/
def natDigitsFuel : Nat → Nat → List Char
  | 0, _ => []
  | fuel + 1, n =>
    if n < 10 then [digitChar n]
    else natDigitsFuel fuel (n / 10) ++ [digitChar (n % 10)]

/-- Decimal digits of `n`, most significant first (Rust's `Display for u64`
and `serde_json`'s rendering of an unsigned integer). -/
def natDigits (n : Nat) : List Char :=
  natDigitsFuel (n + 1) n

/-- Decimal rendering of a natural number as a string. -/
def natReprStr (n : Nat) : String :=
  String.mk (natDigits n)

/-- Decimal rendering of an `i64` value (Rust's `Display for i64`, used for
`timestamp_millis()` in the generated test name). -/
def intReprStr (i : Int) : String :=
  if i < 0 then "-" ++ natReprStr (-i).toNat else natReprStr i.toNat

/-- Numeric value of a digit character. -/
def charVal (c : Char) : Nat :=
  c.toNat - 48

/-- Value of a most-significant-first digit string. -/
def digitsVal (l : List Char) : Nat :=
  l.foldl (fun acc c => acc * 10 + charVal c) 0

/-- Split a character list into its maximal leading digit run and the rest
(the number-parsing step of the JSON decoder model). -/
def readDigits : List Char → List Char × List Char
  | [] => ([], [])
  | c :: rest =>
    if c.isDigit then
      let p := readDigits rest
      (c :: p.1, p.2)
    else ([], c :: rest)

/-- Strip an expected leading segment, returning the remainder (`none` when
the input does not start with it). -/
def stripPre : List Char → List Char → Option (List Char)
  | [], s => some s
  | _ :: _, [] => none
  | a :: p, b :: s => if a = b then stripPre p s else none

/-- `2^32`: the bound of the `u32` fields of `SomeImportantAction`. -/
def u32Bound : Nat := 4294967296

/-- Fixed parts of `serde_json::to_string_pretty` output for
`SomeImportantAction` (a struct with fields `var_1`, `var_2`). -/
def objPre : String := "\x7b\n  \"var_1\": "

/-- Separator between the two fields in the pretty-printed object. -/
def objMid : String := ",\n  \"var_2\": "

/-- Closing part of the pretty-printed object. -/
def objSuf : String := "\n\x7d"

/-- Fixed parts of `serde_json::to_string_pretty` output for a `(u32, u32)`
tuple (serialized as a two-element array). -/
def argPre : String := "[\n  "

/-- Separator between the two array elements. -/
def argMid : String := ",\n  "

/-- Closing part of the pretty-printed array. -/
def argSuf : String := "\n]"

/-- Model of `serde_json::to_string_pretty` on `SomeImportantAction`
(the derived `Serialize` of `src/main.rs` composed with the external codec's
canonical pretty printer, 2-space indentation). -/
def encodeAction (a : SomeImportantAction) : String :=
  objPre ++ natReprStr a.var_1 ++ (objMid ++ (natReprStr a.var_2 ++ objSuf))

/-- Model of `serde_json::to_string_pretty` on a `(u32, u32)` tuple. -/
def encodePair (p : Nat × Nat) : String :=
  argPre ++ natReprStr p.1 ++ (argMid ++ (natReprStr p.2 ++ argSuf))

/-- Generic shape shared by the two deserializer models: expect the fixed
segment `pre`, a decimal number, the fixed segment `mid`, a second decimal
number and the fixed segment `suf`, with nothing left over; reject numbers
outside `u32` range (as serde's `u32` deserializer does). -/
def decodeTwoNat (pre mid suf : String) (s : List Char) : Option (Nat × Nat) :=
  match stripPre pre.data s with
  | none => none
  | some r1 =>
    let p1 := readDigits r1
    if p1.1 = [] then none
    else
      match stripPre mid.data p1.2 with
      | none => none
      | some r2 =>
        let p2 := readDigits r2
        if p2.1 = [] then none
        else
          match stripPre suf.data p2.2 with
          | some [] =>
            if digitsVal p1.1 < u32Bound ∧ digitsVal p2.1 < u32Bound then
              some (digitsVal p1.1, digitsVal p2.1)
            else none
          | _ => none

/-- Model of `serde_json::from_str::<SomeImportantAction>`: parses the
canonical pretty-printed object shape into the two `u32` fields. -/
def decodeAction (s : String) : Option SomeImportantAction :=
  match decodeTwoNat objPre objMid objSuf s.data with
  | none => none
  | some p => some { var_1 := p.1, var_2 := p.2 }

/-- Model of `serde_json::from_str::<(u32, u32)>`: parses the canonical
pretty-printed two-element array shape. -/
def decodePair (s : String) : Option (Nat × Nat) :=
  decodeTwoNat argPre argMid argSuf s.data

/-- The `Executable` implementation of `SomeImportantAction` in
`src/main.rs`: succeeds unless the first argument equals 3, in which case it
fails with `"Whoopsie"`; it never mutates its state. `errRepr` models `{:?}`
on a `String` without escape-worthy characters. -/
def someImportantActionImpl : ExecutableImpl SomeImportantAction (Nat × Nat) Unit String where
  full_path _ := "::SomeImportantAction"
  description _ := "Executes some very important action!"
  execute s args := if args.1 = 3 then (s, Except.error "Whoopsie") else (s, Except.ok ())
  encodeSelf a := some (encodeAction a)
  encodeArgs p := some (encodePair p)
  errRepr e := "\"" ++ e ++ "\""

/-- The generated test-function name: `test_` followed by
`timestamp_millis()` (from the line
`writeln!(fmt, "pub fn test_{}() {{", self.time.timestamp_millis())`). -/
def testName {E Args Err : Type} (u : UnitTest E Args Err) : String :=
  "test_" ++ intReprStr u.time.millis

/-- The text written by `Display::fmt` for `UnitTest` once both
serializations have succeeded; `objJson` / `argJson` are the pretty-printed
payloads. Each `"... \n"` piece is one `writeln!` of the source. -/
def fmtText {E Args Res Err : Type} (impl : ExecutableImpl E Args Res Err)
    (u : UnitTest E Args Err) (objJson argJson : String) : String :=
  "/// Automatically generated unit test for Executable\n\n" ++
  ("/// " ++ impl.description u.executable ++ "\n") ++
  ("/// generated at " ++ u.time.rfc2822 ++ "\n") ++
  "\n" ++
  ("/// exception was " ++ impl.errRepr u.error ++ "\n") ++
  "#[test]\n" ++
  ("pub fn " ++ testName u ++ "() \x7b\n") ++
  "\tuse exceptional::Executable;\n" ++
  ("\tlet obj_json = r#\"" ++ objJson ++ "\"#;\n") ++
  ("\tlet mut obj: " ++ impl.full_path u.executable ++
    " = ::serde_json::from_str(obj_json).expect(\"Could not deserialize json\");\n") ++
  "\t\n" ++
  ("\tlet arg_json = r#\"" ++ argJson ++ "\"#;\n") ++
  "\tlet args = ::serde_json::from_str(arg_json).expect(\"Could not deserialize json\");\n" ++
  "\n" ++
  "\tif let Err(e) = obj.execute(&args) \x7b\n" ++
  "\t\tprintln!(\"Could not execute \x7b\x7d\", obj.description());\n" ++
  "\t\tprintln!(\"\x7b:?\x7d\", e);\n" ++
  "\t\tpanic!();\n" ++
  "\t\x7d\n" ++
  "\x7d\n"

/-- Model of `Display::fmt` for `UnitTest` collected into a string (as
`self.to_string()` does). The executable is serialized first, then the
arguments; a failing serialization hits `.expect(..)`, a Rust panic, modelled
as the `Except.error` channel carrying the panic message — on that channel no
text is produced at all (the partially written formatter buffer is dropped
during unwinding). -/
def fmt {E Args Res Err : Type} (impl : ExecutableImpl E Args Res Err)
    (u : UnitTest E Args Err) : Except String String :=
  match impl.encodeSelf u.executable with
  | none => Except.error "Could not serialize the executable"
  | some objJson =>
    match impl.encodeArgs u.arguments with
    | none => Except.error "Could not serialize arguments"
    | some argJson => Except.ok (fmtText impl u objJson argJson)

/-- Model of `UnitTest::append_to_file`. The file system is the contents of
the single target path (`none` = absent). The source first opens the file
with `create(true).append(true)` (creating it if absent, never truncating),
then renders `self.to_string()` and appends the bytes. A panic during
rendering is the `Except.error` channel, carrying the panic message and the
file state at the moment of the panic (already opened/created, nothing
written). The `Except.ok` channel is a normal return (`io::Result::Ok`) with
the new file contents; I/O errors cannot occur in this file-system model, so
the `io::Result::Err` case never arises. -/
def append_to_file {E Args Res Err : Type} (impl : ExecutableImpl E Args Res Err)
    (u : UnitTest E Args Err) (fs : Option String) :
    Except (String × Option String) (Option String) :=
  let opened : String := fs.getD ""
  match fmt impl u with
  | Except.error msg => Except.error (msg, some opened)
  | Except.ok text => Except.ok (some (opened ++ text))

/-- Iterated `append_to_file` against one path: the file contents threaded
through N successive calls (a panic aborts the sequence). -/
def appendAll {E Args Res Err : Type} (impl : ExecutableImpl E Args Res Err) :
    List (UnitTest E Args Err) → Option String →
    Except (String × Option String) (Option String)
  | [], fs => Except.ok fs
  | u :: rest, fs =>
    match append_to_file impl u fs with
    | Except.error e => Except.error e
    | Except.ok fs2 => appendAll impl rest fs2

/-- The texts of the rendered blocks of a list of unit tests, when every
rendering succeeds. -/
def renderedTexts {E Args Res Err : Type} (impl : ExecutableImpl E Args Res Err) :
    List (UnitTest E Args Err) → Option (List String)
  | [] => some []
  | u :: rest =>
    match fmt impl u with
    | Except.error _ => none
    | Except.ok t =>
      match renderedTexts impl rest with
      | none => none
      | some ts => some (t :: ts)

/-- Concatenation of a list of rendered blocks in call order. -/
def concatTexts : List String → String
  | [] => ""
  | t :: ts => t ++ concatTexts ts

/-- Does `s` start with `p`? -/
def listStartsWith : List Char → List Char → Bool
  | [], _ => true
  | _ :: _, [] => false
  | a :: p, b :: s => a = b && listStartsWith p s

/-- Does `p` occur as a contiguous segment of `s`? (Executable substring
test, used to check that a payload is embedded in a rendered block.) -/
def containsSeg : List Char → List Char → Bool
  | p, [] => listStartsWith p []
  | p, c :: rest => listStartsWith p (c :: rest) || containsSeg p rest

/-- `p` occurs as a contiguous segment of `s` (propositional form). -/
def segmentOf (p s : String) : Prop :=
  ∃ pre suf : String, s = pre ++ p ++ suf

/-- An implementation whose executable cannot be serialized (`Serialize`
fails), used to exercise the encoding-failure path of the renderer. -/
def badEncodeImpl : ExecutableImpl CounterAction Unit Unit String :=
  { counterImpl with encodeSelf := fun _ => none }

/-- A concrete captured failure for `badEncodeImpl`. -/
def badUnit : UnitTest CounterAction Unit String :=
  { error := "boom", arguments := (), executable := { value := 0 }, time := sampleTime }

/-- The captured failure of the concrete scenario of the spec: operation
state `{var_1: 0, var_2: 0}`, arguments `(3, 0)`, error `"Whoopsie"`. -/
def whoopsieUnit : UnitTest SomeImportantAction (Nat × Nat) String :=
  { error := "Whoopsie", arguments := (3, 0), executable := { var_1 := 0, var_2 := 0 },
    time := sampleTime }

/-- A capture time one millisecond after `sampleTime`. -/
def sampleTime2 : DateTimeUtc :=
  { millis := 1539761233544, rfc2822 := "Wed, 17 Oct 2018 07:27:14 +0000" }

/-- A captured failure equal to `badUnit` except for its (later) capture
time. -/
def laterUnit : UnitTest CounterAction Unit String :=
  { error := "boom", arguments := (), executable := { value := 0 }, time := sampleTime2 }

/-- A captured failure sharing `badUnit` timestamp at millisecond
resolution while differing in every other field. -/
def sameMillisUnit : UnitTest CounterAction Unit String :=
  { error := "other", arguments := (), executable := { value := 9 },
    time := { millis := 1539761233543, rfc2822 := "another rendering of the same instant" } }

end Exceptional

namespace Exceptional

/-- Claim C1: for every `Executable` whose `invoke` mutates itself before
returning an error, the `executable` snapshot stored in the returned
`UnitTest` equals the operation's state immediately before the failing
invocation (the clone is taken unconditionally before the call), not the
possibly mutated post-state. -/
theorem snapshot_precedes_mutation {E Args Res Err : Type}
    (impl : ExecutableImpl E Args Res Err) (st : E) (args : Args)
    (now : DateTimeUtc) (st2 : E) (e : Err)
    (h : impl.execute st args = (st2, Except.error e)) :
    execute impl st args now =
      (st2, Except.error { error := e, arguments := args, executable := st, time := now }) := by
  simp only [execute, h]

/-- Witness for C1 at a concrete mutating implementation: `CounterAction`
with `value = 5` increments to `6` and fails, yet the snapshot in the
captured failure holds the pre-invocation state `5`. -/
theorem snapshot_precedes_mutation_witness :
    counterImpl.execute { value := 5 } () = ({ value := 6 }, Except.error "boom") ∧
    execute counterImpl { value := 5 } () sampleTime =
      ({ value := 6 },
        Except.error { error := "boom", arguments := (), executable := { value := 5 },
                       time := sampleTime }) :=
  ⟨rfl,
    snapshot_precedes_mutation counterImpl { value := 5 } () sampleTime
      { value := 6 } "boom" rfl⟩

/-- Claim C3: if `invoke` succeeds then `execute` returns exactly that
success value (with the same post-state) and no `UnitTest` is constructed;
`execute` is a pure function of the executable, the arguments and the clock
(its type mentions no file system, so no file is touched); and `execute`
errors exactly when the inner `invoke` errors. -/
theorem execute_success_purity {E Args Res Err : Type}
    (impl : ExecutableImpl E Args Res Err) (st : E) (args : Args)
    (now : DateTimeUtc) :
    (∀ st2 v, impl.execute st args = (st2, Except.ok v) →
      execute impl st args now = (st2, Except.ok v)) ∧
    exceptIsOk (execute impl st args now).2 = exceptIsOk (impl.execute st args).2 := by
  constructor
  · intro st2 v h
    simp only [execute, h]
  · simp only [execute]
    cases h : (impl.execute st args).2 <;> simp [exceptIsOk]

/-- Witness for C3 at a concrete succeeding call: `SomeImportantAction`
`{var_1: 0, var_2: 0}` invoked with `(2, 0)` succeeds, and `execute` passes
the success through unchanged. -/
theorem execute_success_purity_witness :
    (someImportantActionImpl.execute { var_1 := 0, var_2 := 0 } (2, 0) =
      ({ var_1 := 0, var_2 := 0 }, Except.ok ())) ∧
    execute someImportantActionImpl { var_1 := 0, var_2 := 0 } (2, 0) sampleTime =
      ({ var_1 := 0, var_2 := 0 }, Except.ok ()) :=
  ⟨rfl,
    (execute_success_purity someImportantActionImpl { var_1 := 0, var_2 := 0 }
      (2, 0) sampleTime).1 { var_1 := 0, var_2 := 0 } () rfl⟩

/-- Claim C9: on the failure path `execute` does not roll back the caller's
operation: the first component of the returned pair (the state left in the
caller's `&mut E`) is exactly whatever state the failing `invoke` produced,
while only the snapshot inside the `UnitTest` holds the pre-invocation
state. -/
theorem no_rollback_on_failure {E Args Res Err : Type}
    (impl : ExecutableImpl E Args Res Err) (st : E) (args : Args)
    (now : DateTimeUtc) (st2 : E) (e : Err)
    (h : impl.execute st args = (st2, Except.error e)) :
    (execute impl st args now).1 = st2 ∧
    ∃ u : UnitTest E Args Err, (execute impl st args now).2 = Except.error u ∧
      u.executable = st := by
  have h2 : execute impl st args now =
      (st2, Except.error { error := e, arguments := args, executable := st, time := now }) := by
    simp only [execute, h]
  rw [h2]
  exact ⟨rfl, _, rfl, rfl⟩

/-- Witness for C9: after the failing call, the caller's `CounterAction` is
left at the mutated value `6` (not rolled back to `5`); the snapshot holds
`5`. -/
theorem no_rollback_on_failure_witness :
    (execute counterImpl { value := 5 } () sampleTime).1 = { value := 6 } ∧
    ∃ u : UnitTest CounterAction Unit String,
      (execute counterImpl { value := 5 } () sampleTime).2 = Except.error u ∧
      u.executable = { value := 5 } :=
  no_rollback_on_failure counterImpl { value := 5 } () sampleTime
    { value := 6 } "boom" rfl

/-- The fuelled digit computation does not depend on the fuel once it is
sufficient. -/
theorem natDigitsFuel_irrel (n : Nat) :
    ∀ f1 f2, n < f1 → n < f2 → natDigitsFuel f1 n = natDigitsFuel f2 n := by
  induction n using Nat.strong_induction_on with
  | _ n ih =>
    intro f1 f2 h1 h2
    match f1, f2 with
    | g1 + 1, g2 + 1 =>
      simp only [natDigitsFuel]
      by_cases h10 : n < 10
      · simp [h10]
      · simp only [if_neg h10]
        have hd : n / 10 < n := Nat.div_lt_self (by omega) (by omega)
        rw [ih (n / 10) hd g1 g2 (by omega) (by omega)]

/-- Unfolding equation of `natDigits`. -/
theorem natDigits_eq (n : Nat) :
    natDigits n = if n < 10 then [digitChar n] else natDigits (n / 10) ++ [digitChar (n % 10)] := by
  by_cases h : n < 10
  · simp [natDigits, natDigitsFuel, h]
  · have hd : n / 10 < n := Nat.div_lt_self (by omega) (by omega)
    rw [if_neg h]
    show natDigitsFuel (n + 1) n = natDigitsFuel (n / 10 + 1) (n / 10) ++ [digitChar (n % 10)]
    rw [show natDigitsFuel (n + 1) n =
        if n < 10 then [digitChar n] else natDigitsFuel n (n / 10) ++ [digitChar (n % 10)] from rfl]
    rw [if_neg h, natDigitsFuel_irrel (n / 10) n (n / 10 + 1) hd (by omega)]

/-- `charVal` inverts `digitChar` on digits. -/
theorem charVal_digitChar (d : Nat) (h : d < 10) : charVal (digitChar d) = d := by
  interval_cases d <;> decide

/-- `digitChar` produces digit characters. -/
theorem isDigit_digitChar (d : Nat) (h : d < 10) : (digitChar d).isDigit = true := by
  interval_cases d <;> decide

/-- A decimal rendering is never empty. -/
theorem natDigits_ne_nil (n : Nat) : natDigits n ≠ [] := by
  rw [natDigits_eq]
  split
  · simp
  · simp

/-- Every character of a decimal rendering is a digit. -/
theorem natDigits_all_digit (n : Nat) : ∀ c ∈ natDigits n, c.isDigit = true := by
  induction n using Nat.strong_induction_on with
  | _ n ih =>
    rw [natDigits_eq]
    split
    · next h =>
      intro c hc
      simp only [List.mem_singleton] at hc
      subst hc
      exact isDigit_digitChar n h
    · next h =>
      intro c hc
      simp only [List.mem_append, List.mem_singleton] at hc
      rcases hc with hc | hc
      · exact ih (n / 10) (Nat.div_lt_self (by omega) (by omega)) c hc
      · subst hc
        exact isDigit_digitChar (n % 10) (Nat.mod_lt _ (by omega))

/-- Appending one digit multiplies the value by ten and adds it. -/
theorem digitsVal_append (l : List Char) (c : Char) :
    digitsVal (l ++ [c]) = digitsVal l * 10 + charVal c := by
  simp [digitsVal, List.foldl_append]

/-- Reading back the decimal rendering of `n` yields `n`. -/
theorem digitsVal_natDigits (n : Nat) : digitsVal (natDigits n) = n := by
  induction n using Nat.strong_induction_on with
  | _ n ih =>
    rw [natDigits_eq]
    split
    · next h =>
      simp [digitsVal, charVal_digitChar n h]
    · next h =>
      rw [digitsVal_append, ih (n / 10) (Nat.div_lt_self (by omega) (by omega)),
        charVal_digitChar (n % 10) (Nat.mod_lt _ (by omega))]
      omega

/-- Decimal renderings are injective. -/
theorem natDigits_inj (a b : Nat) (h : natDigits a = natDigits b) : a = b := by
  have ha := digitsVal_natDigits a
  rw [h, digitsVal_natDigits] at ha
  omega

/-- `readDigits` splits a digit run followed by a non-digit boundary. -/
theorem readDigits_append (l rest : List Char)
    (hl : ∀ c ∈ l, c.isDigit = true)
    (hr : ∀ c cs, rest = c :: cs → c.isDigit = false) :
    readDigits (l ++ rest) = (l, rest) := by
  induction l with
  | nil =>
    cases rest with
    | nil => rfl
    | cons c cs => simp [readDigits, hr c cs rfl]
  | cons a l ih =>
    have ha : a.isDigit = true := hl a (by simp)
    simp only [List.cons_append, readDigits, ha, if_pos, List.append_eq]
    rw [ih (fun c hc => hl c (by simp [hc]))]

/-- Stripping a segment from itself-plus-rest leaves the rest. -/
theorem stripPre_append (p s : List Char) : stripPre p (p ++ s) = some s := by
  induction p with
  | nil => rfl
  | cons a p ih => simp [stripPre, ih]


/-- The first character of a decimal rendering is a digit. -/
theorem natDigits_head_digit (n : Nat) (c : Char) (cs : List Char)
    (h : natDigits n = c :: cs) : c.isDigit = true :=
  natDigits_all_digit n c (h ▸ List.mem_cons_self c cs)

/-- `readDigits` consumes exactly a rendered number when a non-digit
follows. -/
theorem readDigits_run (n : Nat) (c : Char) (cs : List Char) (hc : c.isDigit = false) :
    readDigits (natDigits n ++ (c :: cs)) = (natDigits n, c :: cs) :=
  readDigits_append _ _ (natDigits_all_digit n) (fun d ds hd => by
    injection hd with h1 _
    subst h1
    exact hc)

/-- Stripping a segment from exactly itself leaves nothing. -/
theorem stripPre_self (p : List Char) : stripPre p p = some [] := by
  have := stripPre_append p []
  rwa [List.append_nil] at this

/-- The generic two-number decoder inverts the corresponding encoder shape
whenever the separators do not begin with digits and both values fit in a
`u32`. -/
theorem decodeTwoNat_encode (pre mid suf : String) (v1 v2 : Nat)
    (cm : Char) (csm : List Char) (hm : mid.data = cm :: csm) (hmd : cm.isDigit = false)
    (cf : Char) (csf : List Char) (hf : suf.data = cf :: csf) (hfd : cf.isDigit = false)
    (h1 : v1 < u32Bound) (h2 : v2 < u32Bound) :
    decodeTwoNat pre mid suf
      (pre.data ++ (natDigits v1 ++ (mid.data ++ (natDigits v2 ++ suf.data)))) =
      some (v1, v2) := by
  unfold decodeTwoNat
  rw [stripPre_append]
  simp only
  rw [show mid.data ++ (natDigits v2 ++ suf.data) = cm :: (csm ++ (natDigits v2 ++ suf.data)) by
    rw [hm]; simp]
  rw [readDigits_run v1 cm _ hmd]
  simp only
  rw [if_neg (natDigits_ne_nil v1)]
  rw [show cm :: (csm ++ (natDigits v2 ++ suf.data)) = mid.data ++ (natDigits v2 ++ suf.data) by
    rw [hm]; simp]
  rw [stripPre_append]
  simp only
  rw [show suf.data = cf :: csf from hf]
  rw [readDigits_run v2 cf _ hfd]
  simp only
  rw [if_neg (natDigits_ne_nil v2)]
  rw [show cf :: csf = suf.data from hf.symm]
  rw [stripPre_self]
  simp only
  rw [digitsVal_natDigits, digitsVal_natDigits, if_pos ⟨h1, h2⟩]

/-- Character-level shape of the pretty-printed object. -/
theorem encodeAction_data (a : SomeImportantAction) :
    (encodeAction a).data =
      objPre.data ++ (natDigits a.var_1 ++ (objMid.data ++ (natDigits a.var_2 ++ objSuf.data))) := by
  simp [encodeAction, natReprStr, String.data_append, List.append_assoc]

/-- Character-level shape of the pretty-printed array. -/
theorem encodePair_data (p : Nat × Nat) :
    (encodePair p).data =
      argPre.data ++ (natDigits p.1 ++ (argMid.data ++ (natDigits p.2 ++ argSuf.data))) := by
  simp [encodePair, natReprStr, String.data_append, List.append_assoc]

/-- Round trip of the `SomeImportantAction` codec. -/
theorem decodeAction_encodeAction (a : SomeImportantAction)
    (h1 : a.var_1 < u32Bound) (h2 : a.var_2 < u32Bound) :
    decodeAction (encodeAction a) = some a := by
  unfold decodeAction
  rw [encodeAction_data,
    decodeTwoNat_encode objPre objMid objSuf a.var_1 a.var_2
      ',' "\n  \"var_2\": ".data rfl (by decide)
      '\n' "\x7d".data rfl (by decide) h1 h2]

/-- Round trip of the argument-tuple codec. -/
theorem decodePair_encodePair (p : Nat × Nat)
    (h1 : p.1 < u32Bound) (h2 : p.2 < u32Bound) :
    decodePair (encodePair p) = some p := by
  unfold decodePair
  rw [encodePair_data,
    decodeTwoNat_encode argPre argMid argSuf p.1 p.2
      ',' "\n  ".data rfl (by decide)
      '\n' "]".data rfl (by decide) h1 h2]

/-- Decimal string renderings of naturals are injective. -/
theorem natReprStr_inj (a b : Nat) (h : natReprStr a = natReprStr b) : a = b := by
  have hd := congrArg String.data h
  exact natDigits_inj a b hd

/-- Decimal string renderings of integers are injective. -/
theorem intReprStr_inj (a b : Int) (h : intReprStr a = intReprStr b) : a = b := by
  unfold intReprStr at h
  by_cases ha : a < 0 <;> by_cases hb : b < 0
  · rw [if_pos ha, if_pos hb] at h
    have hd := congrArg String.data h
    rw [String.data_append, String.data_append] at hd
    rw [show ("-" : String).data = ['-'] from rfl] at hd
    simp only [List.cons_append, List.nil_append, List.cons.injEq, true_and] at hd
    have := natDigits_inj _ _ hd
    omega
  · exfalso
    rw [if_pos ha, if_neg hb] at h
    have hd := congrArg String.data h
    rw [String.data_append, show ("-" : String).data = ['-'] from rfl] at hd
    obtain ⟨c, cs, hc⟩ : ∃ c cs, natDigits b.toNat = c :: cs := by
      cases hcc : natDigits b.toNat with
      | nil => exact absurd hcc (natDigits_ne_nil _)
      | cons c cs => exact ⟨c, cs, rfl⟩
    rw [show (natReprStr b.toNat).data = natDigits b.toNat from rfl, hc] at hd
    simp only [List.cons_append, List.nil_append, List.cons.injEq] at hd
    have hdig := natDigits_head_digit b.toNat c cs hc
    rw [← hd.1] at hdig
    exact absurd hdig (by decide)
  · exfalso
    rw [if_neg ha, if_pos hb] at h
    have hd := congrArg String.data h
    rw [String.data_append, show ("-" : String).data = ['-'] from rfl] at hd
    obtain ⟨c, cs, hc⟩ : ∃ c cs, natDigits a.toNat = c :: cs := by
      cases hcc : natDigits a.toNat with
      | nil => exact absurd hcc (natDigits_ne_nil _)
      | cons c cs => exact ⟨c, cs, rfl⟩
    rw [show (natReprStr a.toNat).data = natDigits a.toNat from rfl, hc] at hd
    simp only [List.cons_append, List.nil_append, List.cons.injEq] at hd
    have hdig := natDigits_head_digit a.toNat c cs hc
    rw [hd.1] at hdig
    exact absurd hdig (by decide)
  · rw [if_neg ha, if_neg hb] at h
    have hd := congrArg String.data h
    have := natDigits_inj _ _ hd
    omega

/-- Equal generated test names force equal millisecond timestamps. -/
theorem testName_inj {E Args Err : Type} (u1 u2 : UnitTest E Args Err)
    (h : testName u1 = testName u2) : u1.time.millis = u2.time.millis := by
  unfold testName at h
  have hd := congrArg String.data h
  rw [String.data_append, String.data_append] at hd
  have hx := List.append_cancel_left hd
  exact intReprStr_inj _ _ (String.ext hx)

/-- Appending a list of successfully rendered tests to an existing file
concatenates their texts after the existing contents, in call order. -/
theorem appendAll_ok_some {E Args Res Err : Type} (impl : ExecutableImpl E Args Res Err)
    (us : List (UnitTest E Args Err)) :
    ∀ ts : List String, renderedTexts impl us = some ts →
      ∀ c : String, appendAll impl us (some c) = Except.ok (some (c ++ concatTexts ts)) := by
  induction us with
  | nil =>
    intro ts h c
    unfold renderedTexts at h
    injection h with h
    subst h
    simp [appendAll, concatTexts, String.append_empty]
  | cons u rest ih =>
    intro ts h c
    unfold renderedTexts at h
    cases hf : fmt impl u with
    | error msg => rw [hf] at h; cases h
    | ok t =>
      rw [hf] at h
      cases hrest : renderedTexts impl rest with
      | none => rw [hrest] at h; cases h
      | some ts2 =>
        rw [hrest] at h
        injection h with h
        subst h
        show (match append_to_file impl u (some c) with
          | Except.error e => Except.error e
          | Except.ok fs2 => appendAll impl rest fs2) = _
        rw [show append_to_file impl u (some c) = Except.ok (some (c ++ t)) by
          unfold append_to_file
          rw [hf]
          rfl]
        show appendAll impl rest (some (c ++ t)) = _
        rw [ih ts2 hrest (c ++ t)]
        rw [show concatTexts (t :: ts2) = t ++ concatTexts ts2 from rfl,
          String.append_assoc]

/-- Appending a non-empty list of successfully rendered tests to any
starting state (absent file included) yields the prior contents followed by
the concatenated blocks. -/
theorem appendAll_ok_start {E Args Res Err : Type} (impl : ExecutableImpl E Args Res Err)
    (us : List (UnitTest E Args Err)) (ts : List String) (fs : Option String)
    (hne : us ≠ []) (h : renderedTexts impl us = some ts) :
    appendAll impl us fs = Except.ok (some ((fs.getD "") ++ concatTexts ts)) := by
  cases fs with
  | some c => exact appendAll_ok_some impl us ts h c
  | none =>
    cases us with
    | nil => exact absurd rfl hne
    | cons u rest =>
      unfold renderedTexts at h
      cases hf : fmt impl u with
      | error msg => rw [hf] at h; cases h
      | ok t =>
        rw [hf] at h
        cases hrest : renderedTexts impl rest with
        | none => rw [hrest] at h; cases h
        | some ts2 =>
          rw [hrest] at h
          injection h with h
          subst h
          show (match append_to_file impl u none with
            | Except.error e => Except.error e
            | Except.ok fs2 => appendAll impl rest fs2) = _
          rw [show append_to_file impl u none = Except.ok (some ("" ++ t)) by
            unfold append_to_file
            rw [hf]
            rfl]
          show appendAll impl rest (some ("" ++ t)) = _
          rw [appendAll_ok_some impl rest ts2 hrest ("" ++ t)]
          rw [String.empty_append]
          rw [show concatTexts (t :: ts2) = t ++ concatTexts ts2 from rfl]
          rw [show ((none : Option String).getD "") = "" from rfl, String.empty_append]

/-- A successful rendering comes from two successful serializations and is
exactly the `fmtText` of their payloads. -/
theorem fmt_ok_shape {E Args Res Err : Type} (impl : ExecutableImpl E Args Res Err)
    (u : UnitTest E Args Err) (t : String) (h : fmt impl u = Except.ok t) :
    ∃ o a, impl.encodeSelf u.executable = some o ∧ impl.encodeArgs u.arguments = some a ∧
      t = fmtText impl u o a := by
  unfold fmt at h
  cases hs : impl.encodeSelf u.executable with
  | none => rw [hs] at h; cases h
  | some o =>
    rw [hs] at h
    cases ha : impl.encodeArgs u.arguments with
    | none => rw [ha] at h; cases h
    | some a =>
      rw [ha] at h
      injection h with h
      exact ⟨o, a, rfl, rfl, h.symm⟩

/-- Every rendered block embeds its own generated test-function
declaration. -/
theorem testName_segment_fmtText {E Args Res Err : Type} (impl : ExecutableImpl E Args Res Err)
    (u : UnitTest E Args Err) (o a : String) :
    segmentOf ("pub fn " ++ testName u ++ "() \x7b\n") (fmtText impl u o a) := by
  refine ⟨"/// Automatically generated unit test for Executable\n\n" ++
      ("/// " ++ impl.description u.executable ++ "\n") ++
      ("/// generated at " ++ u.time.rfc2822 ++ "\n") ++ "\n" ++
      ("/// exception was " ++ impl.errRepr u.error ++ "\n") ++ "#[test]\n",
    "\tuse exceptional::Executable;\n" ++
      ("\tlet obj_json = r#\"" ++ o ++ "\"#;\n") ++
      ("\tlet mut obj: " ++ impl.full_path u.executable ++
        " = ::serde_json::from_str(obj_json).expect(\"Could not deserialize json\");\n") ++
      "\t\n" ++
      ("\tlet arg_json = r#\"" ++ a ++ "\"#;\n") ++
      "\tlet args = ::serde_json::from_str(arg_json).expect(\"Could not deserialize json\");\n" ++
      "\n" ++
      "\tif let Err(e) = obj.execute(&args) \x7b\n" ++
      "\t\tprintln!(\"Could not execute \x7b\x7d\", obj.description());\n" ++
      "\t\tprintln!(\"\x7b:?\x7d\", e);\n" ++
      "\t\tpanic!();\n" ++
      "\t\x7d\n" ++
      "\x7d\n", ?_⟩
  unfold fmtText
  apply String.ext
  simp only [String.data_append, List.append_assoc]

/-- Claim C8: for every Capturable Operation value and every Arguments value
(of the concrete `SomeImportantAction` program, with fields in `u32` range),
decoding the encoding yields a value equal to the original, under the
codec equality notion (here: plain equality of the decoded value). -/
theorem codec_round_trip :
    (∀ a : SomeImportantAction, a.var_1 < u32Bound → a.var_2 < u32Bound →
      decodeAction (encodeAction a) = some a) ∧
    (∀ p : Nat × Nat, p.1 < u32Bound → p.2 < u32Bound →
      decodePair (encodePair p) = some p) :=
  ⟨fun a h1 h2 => decodeAction_encodeAction a h1 h2,
   fun p h1 h2 => decodePair_encodePair p h1 h2⟩

set_option maxRecDepth 10000 in
/-- Witness for C8 at the concrete values of the scenario. -/
theorem codec_round_trip_witness :
    ((0 : Nat) < u32Bound ∧
      decodeAction (encodeAction { var_1 := 0, var_2 := 0 }) = some { var_1 := 0, var_2 := 0 }) ∧
    ((3 : Nat) < u32Bound ∧
      decodePair (encodePair (3, 0)) = some (3, 0)) :=
  ⟨⟨by decide, codec_round_trip.1 { var_1 := 0, var_2 := 0 } (by decide) (by decide)⟩,
   ⟨by decide, codec_round_trip.2 (3, 0) (by decide) (by decide)⟩⟩

set_option maxRecDepth 10000 in
/-- Claim C4: on the concrete operation `{var_1: 0, var_2: 0}`, `invoke`
fails exactly when the first argument equals 3, so arguments `(2, 0)`
succeed; first argument 3 yields the failure `"Whoopsie"`; and the rendered
test block embeds the canonical pretty-printed payloads
`\x7b"var_1": 0, "var_2": 0\x7d` and `[3, 0]` together with the exact error
text `/// exception was "Whoopsie"`. -/
theorem concrete_scenario :
    (∀ (s : SomeImportantAction) (a : Nat × Nat),
      (someImportantActionImpl.execute s a).2 = Except.error "Whoopsie" ↔ a.1 = 3) ∧
    execute someImportantActionImpl { var_1 := 0, var_2 := 0 } (2, 0) sampleTime =
      ({ var_1 := 0, var_2 := 0 }, Except.ok ()) ∧
    execute someImportantActionImpl { var_1 := 0, var_2 := 0 } (3, 0) sampleTime =
      ({ var_1 := 0, var_2 := 0 }, Except.error whoopsieUnit) ∧
    (∃ t, fmt someImportantActionImpl whoopsieUnit = Except.ok t ∧
      containsSeg "\x7b\n  \"var_1\": 0,\n  \"var_2\": 0\n\x7d".data t.data = true ∧
      containsSeg "[\n  3,\n  0\n]".data t.data = true ∧
      containsSeg "/// exception was \"Whoopsie\"".data t.data = true) := by
  refine ⟨?_, rfl, rfl, ⟨_, rfl, by decide, by decide, by decide⟩⟩
  intro s a
  by_cases h : a.1 = 3 <;> simp [someImportantActionImpl, h]

/-- Claim C7: rendering is a pure, deterministic function of the Captured
Failure: two unit tests agreeing on error, arguments, snapshot and timestamp
render to byte-identical text. -/
theorem render_deterministic {E Args Res Err : Type} (impl : ExecutableImpl E Args Res Err)
    (u1 u2 : UnitTest E Args Err)
    (he : u1.error = u2.error) (ha : u1.arguments = u2.arguments)
    (hx : u1.executable = u2.executable) (ht : u1.time = u2.time) :
    fmt impl u1 = fmt impl u2 := by
  cases u1
  cases u2
  cases he
  cases ha
  cases hx
  cases ht
  rfl

/-- Witness for C7 at the concrete scenario capture. -/
theorem render_deterministic_witness :
    whoopsieUnit.error = whoopsieUnit.error ∧
    fmt someImportantActionImpl whoopsieUnit = fmt someImportantActionImpl whoopsieUnit :=
  ⟨rfl, render_deterministic someImportantActionImpl whoopsieUnit whoopsieUnit rfl rfl rfl rfl⟩

/-- Claim C2, counterexample: on an executable whose snapshot cannot be
serialized, the encoding failure is NOT surfaced as an explicit failure
result of `append_to_file` (whose return value models `io::Result`): the
call panics (`Except.error`, the model of `.expect(..)` aborting the
process) and returns no result value at all, and `render` likewise produces
no value. -/
theorem encoding_failure_not_result_counterexample :
    append_to_file badEncodeImpl badUnit none =
      Except.error ("Could not serialize the executable", some "") ∧
    (∀ r : Option String, append_to_file badEncodeImpl badUnit none ≠ Except.ok r) ∧
    (∀ t : String, fmt badEncodeImpl badUnit ≠ Except.ok t) := by
  refine ⟨rfl, ?_, ?_⟩
  · intro r h
    exact Except.noConfusion h
  · intro t h
    exact Except.noConfusion h

/-- Claim C2 (amended): encoding failure of the snapshot or the arguments
aborts rendering synchronously via a panic with a clear diagnostic (rather
than being returned as an error value); it is not swallowed, no text is
produced, and no partial or corrupt test block is written to the file —
`append_to_file` panics right after opening, leaving the file contents
exactly as opened (created empty if absent). -/
theorem encoding_failure_aborts {E Args Res Err : Type} (impl : ExecutableImpl E Args Res Err)
    (u : UnitTest E Args Err) (fs : Option String)
    (h : impl.encodeSelf u.executable = none ∨ impl.encodeArgs u.arguments = none) :
    (∀ t, fmt impl u ≠ Except.ok t) ∧
    (∃ msg, fmt impl u = Except.error msg ∧
      (msg = "Could not serialize the executable" ∨ msg = "Could not serialize arguments")) ∧
    (∃ msg, append_to_file impl u fs = Except.error (msg, some (fs.getD ""))) := by
  have key : ∃ msg, fmt impl u = Except.error msg ∧
      (msg = "Could not serialize the executable" ∨ msg = "Could not serialize arguments") := by
    unfold fmt
    rcases h with h | h
    · rw [h]
      exact ⟨_, rfl, Or.inl rfl⟩
    · cases hs : impl.encodeSelf u.executable with
      | none => exact ⟨_, rfl, Or.inl rfl⟩
      | some o =>
        rw [h]
        exact ⟨_, rfl, Or.inr rfl⟩
  obtain ⟨msg, hmsg, hor⟩ := key
  refine ⟨?_, ⟨msg, hmsg, hor⟩, ⟨msg, ?_⟩⟩
  · intro t ht
    rw [hmsg] at ht
    exact Except.noConfusion ht
  · unfold append_to_file
    rw [hmsg]

/-- Witness for the amended C2 at the concrete failing-to-encode unit. -/
theorem encoding_failure_aborts_witness :
    (badEncodeImpl.encodeSelf badUnit.executable = none ∨
      badEncodeImpl.encodeArgs badUnit.arguments = none) ∧
    ((∀ t, fmt badEncodeImpl badUnit ≠ Except.ok t) ∧
      (∃ msg, fmt badEncodeImpl badUnit = Except.error msg ∧
        (msg = "Could not serialize the executable" ∨ msg = "Could not serialize arguments")) ∧
      (∃ msg, append_to_file badEncodeImpl badUnit none =
        Except.error (msg, some ((none : Option String).getD "")))) :=
  ⟨Or.inl rfl, encoding_failure_aborts badEncodeImpl badUnit none (Or.inl rfl)⟩

/-- Claim C5: two Captured Failures whose timestamps differ at millisecond
resolution render blocks with distinct generated test-function names (each
block embeds its own name); appending both to the same file yields the file
containing both blocks in append order after the prior contents, with
neither overwritten. -/
theorem distinct_millis_distinct_blocks {E Args Res Err : Type}
    (impl : ExecutableImpl E Args Res Err) (u1 u2 : UnitTest E Args Err)
    (t1 t2 : String) (fs : Option String)
    (hm : u1.time.millis ≠ u2.time.millis)
    (h1 : fmt impl u1 = Except.ok t1) (h2 : fmt impl u2 = Except.ok t2) :
    testName u1 ≠ testName u2 ∧
    segmentOf ("pub fn " ++ testName u1 ++ "() \x7b\n") t1 ∧
    segmentOf ("pub fn " ++ testName u2 ++ "() \x7b\n") t2 ∧
    appendAll impl [u1, u2] fs = Except.ok (some ((fs.getD "") ++ (t1 ++ t2))) := by
  obtain ⟨o1, a1, _, _, ht1⟩ := fmt_ok_shape impl u1 t1 h1
  obtain ⟨o2, a2, _, _, ht2⟩ := fmt_ok_shape impl u2 t2 h2
  refine ⟨fun hEq => hm (testName_inj u1 u2 hEq), ?_, ?_, ?_⟩
  · rw [ht1]
    exact testName_segment_fmtText impl u1 o1 a1
  · rw [ht2]
    exact testName_segment_fmtText impl u2 o2 a2
  · have := appendAll_ok_start impl [u1, u2] [t1, t2] fs (by simp) (by
      simp only [renderedTexts, h1, h2])
    rw [this]
    rw [show concatTexts [t1, t2] = t1 ++ (t2 ++ "") from rfl, String.append_empty]

set_option maxRecDepth 10000 in
/-- Witness for C5 at two captures one millisecond apart. -/
theorem distinct_millis_distinct_blocks_witness :
    badUnit.time.millis ≠ laterUnit.time.millis ∧
    (testName badUnit ≠ testName laterUnit ∧
      segmentOf ("pub fn " ++ testName badUnit ++ "() \x7b\n")
        (fmtText counterImpl badUnit "" "") ∧
      segmentOf ("pub fn " ++ testName laterUnit ++ "() \x7b\n")
        (fmtText counterImpl laterUnit "" "") ∧
      appendAll counterImpl [badUnit, laterUnit] none =
        Except.ok (some (((none : Option String).getD "") ++
          (fmtText counterImpl badUnit "" "" ++ fmtText counterImpl laterUnit "" "")))) :=
  ⟨by decide,
    distinct_millis_distinct_blocks counterImpl badUnit laterUnit
      (fmtText counterImpl badUnit "" "") (fmtText counterImpl laterUnit "" "") none
      (by decide) rfl rfl⟩

/-- Claim C6: appending N (N ≥ 1) successfully rendered unit tests against
one path creates the file if absent, and afterwards the file contains
exactly the N rendered blocks concatenated in call order; starting from
existing contents `c`, the result is `c` followed by the blocks — nothing is
truncated or rewritten. -/
theorem append_accumulates {E Args Res Err : Type} (impl : ExecutableImpl E Args Res Err)
    (us : List (UnitTest E Args Err)) (ts : List String)
    (hne : us ≠ []) (h : renderedTexts impl us = some ts) :
    appendAll impl us none = Except.ok (some (concatTexts ts)) ∧
    (∀ c, appendAll impl us (some c) = Except.ok (some (c ++ concatTexts ts))) := by
  constructor
  · have := appendAll_ok_start impl us ts none hne h
    rwa [show ((none : Option String).getD "") = "" from rfl, String.empty_append] at this
  · intro c
    exact appendAll_ok_some impl us ts h c

/-- Witness for C6 with two concrete captures and an absent file. -/
theorem append_accumulates_witness :
    (([badUnit, laterUnit] : List (UnitTest CounterAction Unit String)) ≠ []) ∧
    renderedTexts counterImpl [badUnit, laterUnit] =
      some [fmtText counterImpl badUnit "" "", fmtText counterImpl laterUnit "" ""] ∧
    appendAll counterImpl [badUnit, laterUnit] none =
      Except.ok (some (concatTexts
        [fmtText counterImpl badUnit "" "", fmtText counterImpl laterUnit "" ""])) :=
  ⟨by simp, rfl,
    (append_accumulates counterImpl [badUnit, laterUnit]
      [fmtText counterImpl badUnit "" "", fmtText counterImpl laterUnit "" ""]
      (by simp) rfl).1⟩

/-- Claim C10: the generated test-function name is derived solely from the
capture time truncated to milliseconds (`test_<timestamp_millis>`), so two
Captured Failures within the same millisecond get identical function names —
uniqueness holds only at millisecond granularity. -/
theorem same_millis_same_name {E Args Err : Type} (u1 u2 : UnitTest E Args Err)
    (h : u1.time.millis = u2.time.millis) :
    testName u1 = "test_" ++ intReprStr u1.time.millis ∧
    testName u1 = testName u2 := by
  constructor
  · rfl
  · unfold testName
    rw [h]

/-- Witness for C10 at two captures in the same millisecond differing in
every other field. -/
theorem same_millis_same_name_witness :
    badUnit.time.millis = sameMillisUnit.time.millis ∧
    (testName badUnit = "test_" ++ intReprStr badUnit.time.millis ∧
      testName badUnit = testName sameMillisUnit) :=
  ⟨rfl, same_millis_same_name badUnit sameMillisUnit rfl⟩


end Exceptional
